import Mathlib

/-!
Shallow embedding of the keyboard listener registry implemented in
`packages/jspsych/src/modules/plugin-api/KeyboardListenerAPI.ts`.

Modelling conventions:
* Listener and token closures are identified by natural-number ids; the
  registration function receives a fresh id from its caller, mirroring the
  allocation of fresh closure objects in the source.
* Clock readings (`performance.now()`, `audio_context.currentTime * 1000`)
  are integers in milliseconds; both readings are carried on each event, so
  `Math.round` of an already-integral difference is the identity.
* JavaScript `Set` objects are modelled by duplicate-free insertion-order
  lists; `Map` objects by association lists of key/value id pairs.
* The effect of invoking a callback is recorded as an emitted
  `CallbackCall` value instead of running arbitrary code; the state passed
  to the callback's continuation is the state at invocation time, which
  captures the source's remove-before-invoke ordering.
-/

/-- `ValidResponses` from the source: a list of keys, or one of the two
sentinel strings `"ALL_KEYS"` / `"NO_KEYS"`. -/
inductive ValidResponses where
  | ALL_KEYS : ValidResponses
  | NO_KEYS : ValidResponses
  | keys : List String → ValidResponses
deriving Repr, DecidableEq

/-- A keyboard event: the `key` field plus the two clock readings visible at
dispatch time (`performance.now()` in ms, `audio_context.currentTime` scaled
to ms). -/
structure Event where
  key : String
  perfNow : Int
  audioNowMs : Int
deriving Repr, DecidableEq

/-- The data captured by one normal-mode listener closure created in
`getKeyboardResponse` (identified by `lid`). -/
structure NormalListener where
  lid : Nat
  valid_responses : ValidResponses
  usePerformanceRt : Bool
  persist : Bool
  allow_held_key : Bool
  minimum_valid_rt : Int
  startTime : Int
deriving Repr, DecidableEq

/-- The data captured by one high-priority handler closure (identified by
`hid`), along with the id `tid` of the cancellation token minted with it. -/
structure HPHandler where
  hid : Nat
  tid : Nat
  valid_responses : ValidResponses
  usePerformanceRt : Bool
  allow_held_key : Bool
  minimum_valid_rt : Int
  startTime : Int
deriving Repr, DecidableEq

/-- The mutable state of a `KeyboardListenerAPI` instance. -/
structure APIState where
  areResponsesCaseSensitive : Bool
  minimumValidRt : Int
  listeners : List NormalListener
  heldKeys : List String
  highPriorityQueue : List HPHandler
  highPriorityTokenToHandler : List (Nat × Nat)
  highPriorityHandlerToToken : List (Nat × Nat)
deriving Repr, DecidableEq

/-- One observed callback invocation: the id of the registered entity whose
callback fired, plus the `{ key, rt }` argument object. -/
structure CallbackCall where
  cid : Nat
  key : String
  rt : Int
deriving Repr, DecidableEq

/-- JavaScript `toLowerCase()` on key strings, written as a structural map
over the character list so that it evaluates inside the kernel; the per-char
lowering is the same ASCII one the runtime applies to key names. -/
def lowerString (s : String) : String := String.mk (s.data.map Char.toLower)

/-- `toLowerCaseIfInsensitive` from the source. -/
def toLowerCaseIfInsensitive (s : APIState) (str : String) : String :=
  if s.areResponsesCaseSensitive then str else lowerString str

/-- JavaScript `Set.add`: append if not already present. -/
def heldInsert (held : List String) (k : String) : List String :=
  if held.contains k then held else held ++ [k]

/-- JavaScript `Set.delete` on a duplicate-free list. -/
def heldDelete (held : List String) (k : String) : List String :=
  held.filter (fun x => x != k)

/-- `isResponseValid` from the source: held-key check first, then the
sentinel checks, then explicit membership. -/
def isResponseValid (s : APIState) (vr : ValidResponses) (allowHeldKey : Bool)
    (key : String) : Bool :=
  if !allowHeldKey && s.heldKeys.contains key then false
  else
    match vr with
    | ValidResponses.ALL_KEYS => true
    | ValidResponses.NO_KEYS => false
    | ValidResponses.keys ks => ks.contains key

/-- The reaction time computed inside a listener closure: current reading of
the closure's clock minus its captured start time. -/
def computeRt (usePerformanceRt : Bool) (startTime : Int) (e : Event) : Int :=
  (if usePerformanceRt then e.perfNow else e.audioNowMs) - startTime

/-- `cancelKeyboardResponse` from the source: try the normal-listener set
first (and return if the handle was there); otherwise treat the handle as a
high-priority token and purge the queue and both cross-index maps. -/
def cancelKeyboardResponse (s : APIState) (handle : Nat) : APIState :=
  if s.listeners.any (fun l => l.lid == handle) then
    { s with listeners := s.listeners.filter (fun l => l.lid != handle) }
  else
    match s.highPriorityTokenToHandler.find? (fun p => p.1 == handle) with
    | some p =>
        { s with
          highPriorityQueue := s.highPriorityQueue.eraseP (fun h => h.hid == p.2),
          highPriorityTokenToHandler :=
            s.highPriorityTokenToHandler.filter (fun q => q.1 != handle),
          highPriorityHandlerToToken :=
            s.highPriorityHandlerToToken.filter (fun q => q.1 != p.2) }
    | none => s

/-- The `{ key: e.key, rt }` object passed to a callback, tagged with the id
of the entity whose callback fired. -/
def mkCall (cid : Nat) (e : Event) (rt : Int) : CallbackCall :=
  { cid := cid, key := e.key, rt := rt }

/-- The body of a normal-mode listener closure: minimum-RT gate, key
normalization, validation, then (for one-shot listeners) self-removal
followed by the callback invocation. -/
def runNormalListener (s : APIState) (l : NormalListener) (e : Event) :
    APIState × Option CallbackCall :=
  let rt := computeRt l.usePerformanceRt l.startTime e
  if rt < l.minimum_valid_rt then
    (s, none)
  else
    let key := toLowerCaseIfInsensitive s e.key
    if isResponseValid s l.valid_responses l.allow_held_key key then
      let s1 := if !l.persist then cancelKeyboardResponse s l.lid else s
      (s1, some (mkCall l.lid e rt))
    else
      (s, none)

/-- The body of a high-priority handler closure: same gate and validation as
the normal path, but it returns whether the event was consumed and never
mutates the registry itself. -/
def runHighPriorityHandler (s : APIState) (h : HPHandler) (e : Event) :
    Bool × Option CallbackCall :=
  let rt := computeRt h.usePerformanceRt h.startTime e
  if rt < h.minimum_valid_rt then
    (false, none)
  else
    let key := toLowerCaseIfInsensitive s e.key
    if isResponseValid s h.valid_responses h.allow_held_key key then
      (true, some (mkCall h.hid e rt))
    else
      (false, none)

/-- One iteration of the dispatch loop over the snapshot of the normal
listener set: run the listener's closure against the current live state and
append any emitted callback invocation. -/
def dispatchStep (e : Event) (acc : APIState × List CallbackCall)
    (l : NormalListener) : APIState × List CallbackCall :=
  let r := runNormalListener acc.1 l e
  (r.1, acc.2 ++ r.2.toList)

/-- The state mutation of the consumed branch of `rootKeydownListener`:
`shift()` the queue, then look the handler up in the handler-to-token map and
purge both maps. -/
def postConsume (s : APIState) (h : HPHandler) : APIState :=
  let s1 := { s with highPriorityQueue := s.highPriorityQueue.tail }
  match s.highPriorityHandlerToToken.find? (fun p => p.1 == h.hid) with
  | some p =>
      { s1 with
        highPriorityTokenToHandler :=
          s1.highPriorityTokenToHandler.filter (fun q => q.1 != p.2),
        highPriorityHandlerToToken :=
          s1.highPriorityHandlerToToken.filter (fun q => q.1 != h.hid) }
  | none => s1

/-- `rootKeydownListener` from the source: if the high-priority queue is
non-empty, invoke only its head handler (popping it and purging the maps when
it consumes the event); otherwise iterate over a static copy of the normal
listener set. In both branches, the normalized key is added to the held-key
set after dispatch completes. -/
def rootKeydownListener (s : APIState) (e : Event) :
    APIState × List CallbackCall :=
  let res :=
    match s.highPriorityQueue with
    | h :: _ =>
        let r := runHighPriorityHandler s h e
        (if r.1 then postConsume s h else s, r.2.toList)
    | [] => s.listeners.foldl (dispatchStep e) (s, [])
  ({ res.1 with
      heldKeys := heldInsert res.1.heldKeys (toLowerCaseIfInsensitive res.1 e.key) },
   res.2)

/-- `rootKeyupListener` from the source: drop the normalized key from the
held-key set. -/
def rootKeyupListener (s : APIState) (e : Event) : APIState :=
  { s with heldKeys := heldDelete s.heldKeys (toLowerCaseIfInsensitive s e.key) }

/-- The `rt_method` option after the invalid-string fallback has run. -/
inductive RtMethod where
  | performance : RtMethod
  | audio : RtMethod
deriving Repr, DecidableEq

/-- The `priority` option. -/
inductive ListenerPriority where
  | normal : ListenerPriority
  | high : ListenerPriority
deriving Repr, DecidableEq

/-- The options object accepted by `getKeyboardResponse`, with the source's
defaults (`minimum_valid_rt` defaults to the constructor-supplied floor, so
it is optional here). -/
structure GetKeyboardResponseOptions where
  valid_responses : ValidResponses := ValidResponses.ALL_KEYS
  rt_method : RtMethod := RtMethod.performance
  persist : Bool := false
  audio_context_start_time : Int := 0
  allow_held_key : Bool := false
  minimum_valid_rt : Option Int := none
  priority : ListenerPriority := ListenerPriority.normal
deriving Repr, DecidableEq

/-- The registration-time normalization of an explicit response list when
responses are case-insensitive. -/
def normalizeValidResponses (caseSensitive : Bool) (vr : ValidResponses) :
    ValidResponses :=
  if caseSensitive then vr
  else
    match vr with
    | ValidResponses.keys ks => ValidResponses.keys (ks.map lowerString)
    | other => other

/-- `getKeyboardResponse` from the source. `perfNow` is the reading of
`performance.now()` at registration time, `freshId` the id of the freshly
allocated closure (the high-priority path also mints a token, given id
`freshId + 1`). Returns the new state and the returned handle's id. -/
def getKeyboardResponse (s : APIState) (o : GetKeyboardResponseOptions)
    (perfNow : Int) (freshId : Nat) : APIState × Nat :=
  let usePerformanceRt := o.rt_method == RtMethod.performance
  let startTime :=
    if usePerformanceRt then perfNow else o.audio_context_start_time * 1000
  let vr := normalizeValidResponses s.areResponsesCaseSensitive o.valid_responses
  let minRt := o.minimum_valid_rt.getD s.minimumValidRt
  match o.priority with
  | ListenerPriority.high =>
      let h : HPHandler :=
        { hid := freshId, tid := freshId + 1, valid_responses := vr,
          usePerformanceRt := usePerformanceRt,
          allow_held_key := o.allow_held_key,
          minimum_valid_rt := minRt, startTime := startTime }
      ({ s with
          highPriorityQueue := s.highPriorityQueue ++ [h],
          highPriorityTokenToHandler :=
            s.highPriorityTokenToHandler ++ [(h.tid, h.hid)],
          highPriorityHandlerToToken :=
            s.highPriorityHandlerToToken ++ [(h.hid, h.tid)] },
       h.tid)
  | ListenerPriority.normal =>
      let l : NormalListener :=
        { lid := freshId, valid_responses := vr,
          usePerformanceRt := usePerformanceRt, persist := o.persist,
          allow_held_key := o.allow_held_key,
          minimum_valid_rt := minRt, startTime := startTime }
      ({ s with listeners := s.listeners ++ [l] }, l.lid)

/-- `cancelAllKeyboardResponses` from the source. -/
def cancelAllKeyboardResponses (s : APIState) : APIState :=
  { s with
      listeners := [],
      highPriorityQueue := [],
      highPriorityTokenToHandler := [],
      highPriorityHandlerToToken := [] }

/-- An argument to `compareKeys`: a string, `null`, or any other runtime
value (a number, an array, ...). -/
inductive KeyArg where
  | str : String → KeyArg
  | null : KeyArg
  | invalid : KeyArg
deriving Repr, DecidableEq

/-- `compareKeys` from the source. The first component is the returned value
(`none` models `undefined`); the second records whether the invalid-argument
diagnostic was written to the console. -/
def compareKeys (caseSensitive : Bool) (key1 key2 : KeyArg) :
    Option Bool × Bool :=
  match key1, key2 with
  | KeyArg.invalid, _ => (none, true)
  | _, KeyArg.invalid => (none, true)
  | KeyArg.str a, KeyArg.str b =>
      (some (if caseSensitive then a == b else lowerString a == lowerString b),
       false)
  | KeyArg.null, KeyArg.null => (some true, false)
  | _, _ => (some false, false)

/-- One key-down event delivered to the root listener, with the calls it
emits appended to the accumulated trace. -/
def eventStep (acc : APIState × List CallbackCall) (e : Event) :
    APIState × List CallbackCall :=
  let r := rootKeydownListener acc.1 e
  (r.1, acc.2 ++ r.2)

/-- Dispatch a whole sequence of key-down events, accumulating every callback
invocation in order. -/
def processEvents (s : APIState) (es : List Event) :
    APIState × List CallbackCall :=
  es.foldl eventStep (s, [])

/-- Whether a normal listener's closure fires (passes both the minimum-RT
gate and validation) for a given event, as a function of the pre-dispatch
state. -/
def firesOn (s : APIState) (l : NormalListener) (e : Event) : Bool :=
  !(decide (computeRt l.usePerformanceRt l.startTime e < l.minimum_valid_rt)) &&
    isResponseValid s l.valid_responses l.allow_held_key
      (toLowerCaseIfInsensitive s e.key)

/-- Whether a high-priority handler consumes a given event, as a function of
the pre-dispatch state. -/
def firesHP (s : APIState) (h : HPHandler) (e : Event) : Bool :=
  !(decide (computeRt h.usePerformanceRt h.startTime e < h.minimum_valid_rt)) &&
    isResponseValid s h.valid_responses h.allow_held_key
      (toLowerCaseIfInsensitive s e.key)

/-- The callback invocation emitted by a normal listener when it fires. -/
def listenerCall (l : NormalListener) (e : Event) : CallbackCall :=
  mkCall l.lid e (computeRt l.usePerformanceRt l.startTime e)

/-- The callback invocation emitted by a high-priority handler when it
consumes an event. -/
def handlerCall (h : HPHandler) (e : Event) : CallbackCall :=
  mkCall h.hid e (computeRt h.usePerformanceRt h.startTime e)

/-- The calls emitted when a snapshot `L` of the normal listener set is
dispatched against pre-dispatch state `s`. -/
def newCalls (s : APIState) (e : Event) (L : List NormalListener) :
    List CallbackCall :=
  L.filterMap (fun l => if firesOn s l e then some (listenerCall l e) else none)

/-- Whether dispatching snapshot `L` against pre-dispatch state `s` removes
every listener whose id equals `x.lid` (some one-shot member of the snapshot
with that id fires). -/
def removesLid (s : APIState) (e : Event) (L : List NormalListener)
    (x : NormalListener) : Bool :=
  L.any (fun l => firesOn s l e && !l.persist && x.lid == l.lid)

/-- Id hygiene of reachable registry states, as far as the one-shot
guarantee needs it: no normal-listener id collides with a token key in the
token-to-handler map, no high-priority handler id equals `n`, at most one
normal listener carries id `n`, and any that does is one-shot. -/
abbrev OneShotInv (n : Nat) (s : APIState) : Prop :=
  (∀ l ∈ s.listeners, ∀ p ∈ s.highPriorityTokenToHandler, p.1 ≠ l.lid) ∧
  (∀ h ∈ s.highPriorityQueue, h.hid ≠ n) ∧
  s.listeners.countP (fun l => l.lid == n) ≤ 1 ∧
  (∀ l ∈ s.listeners, l.lid = n → l.persist = false)

/-- A one-shot normal listener accepting f or j with a 100 ms RT floor. -/
def wL1 : NormalListener :=
  { lid := 1, valid_responses := ValidResponses.keys ["f", "j"],
    usePerformanceRt := true, persist := false, allow_held_key := false,
    minimum_valid_rt := 100, startTime := 0 }

/-- A persistent catch-all listener with no RT floor. -/
def wLp : NormalListener :=
  { lid := 2, valid_responses := ValidResponses.ALL_KEYS,
    usePerformanceRt := true, persist := true, allow_held_key := false,
    minimum_valid_rt := 0, startTime := 0 }

/-- High-priority handler accepting only key a. -/
def wA : HPHandler :=
  { hid := 10, tid := 11, valid_responses := ValidResponses.keys ["a"],
    usePerformanceRt := true, allow_held_key := false,
    minimum_valid_rt := 0, startTime := 0 }

/-- High-priority handler accepting only key b. -/
def wB : HPHandler :=
  { hid := 12, tid := 13, valid_responses := ValidResponses.keys ["b"],
    usePerformanceRt := true, allow_held_key := false,
    minimum_valid_rt := 0, startTime := 0 }

/-- High-priority catch-all handler with a 100 ms RT floor. -/
def wH : HPHandler :=
  { hid := 20, tid := 21, valid_responses := ValidResponses.ALL_KEYS,
    usePerformanceRt := true, allow_held_key := false,
    minimum_valid_rt := 100, startTime := 0 }

/-- A freshly constructed case-insensitive registry with no entries. -/
def emptyState : APIState :=
  { areResponsesCaseSensitive := false, minimumValidRt := 0, listeners := [],
    heldKeys := [], highPriorityQueue := [], highPriorityTokenToHandler := [],
    highPriorityHandlerToToken := [] }

/-- Registry holding just the one-shot listener. -/
def wS1 : APIState := { emptyState with listeners := [wL1] }

/-- Registry holding just the persistent listener. -/
def wSp : APIState := { emptyState with listeners := [wLp] }

/-- Registry with two queued high-priority handlers, registered a-first. -/
def wS2 : APIState :=
  { emptyState with
      highPriorityQueue := [wA, wB],
      highPriorityTokenToHandler := [(11, 10), (13, 12)],
      highPriorityHandlerToToken := [(10, 11), (12, 13)] }

/-- Registry with one queued high-priority handler plus a normal listener. -/
def wS1A : APIState :=
  { emptyState with
      listeners := [wL1],
      highPriorityQueue := [wA],
      highPriorityTokenToHandler := [(11, 10)],
      highPriorityHandlerToToken := [(10, 11)] }

/-- Registry with the RT-floored high-priority handler queued. -/
def wSH : APIState :=
  { emptyState with
      highPriorityQueue := [wH],
      highPriorityTokenToHandler := [(21, 20)],
      highPriorityHandlerToToken := [(20, 21)] }

/-- A key-down on j at 250 ms. -/
def wE1 : Event := { key := "j", perfNow := 250, audioNowMs := 0 }

/-- A key-down on j at 400 ms. -/
def wE2 : Event := { key := "j", perfNow := 400, audioNowMs := 0 }

/-- A key-down on a at 60 ms. -/
def wEa : Event := { key := "a", perfNow := 60, audioNowMs := 0 }

/-- A key-down on b at 50 ms. -/
def wEb : Event := { key := "b", perfNow := 50, audioNowMs := 0 }

/-- A key-down on j at 50 ms, below the 100 ms floor. -/
def wEfast : Event := { key := "j", perfNow := 50, audioNowMs := 0 }

/-- A key-down on a at 500 ms, above every floor in play. -/
def wEslow : Event := { key := "a", perfNow := 500, audioNowMs := 0 }

/-- Registration options carrying an explicit upper-case response list. -/
def wOpts : GetKeyboardResponseOptions :=
  { valid_responses := ValidResponses.keys ["F", "J"] }

theorem runNormalListener_eq (s : APIState) (l : NormalListener) (e : Event) :
    runNormalListener s l e =
      (if firesOn s l e && !l.persist then cancelKeyboardResponse s l.lid else s,
       if firesOn s l e then some (listenerCall l e) else none) := by
  unfold runNormalListener firesOn listenerCall
  by_cases h1 : computeRt l.usePerformanceRt l.startTime e < l.minimum_valid_rt
  · simp [h1]
  · by_cases h2 : isResponseValid s l.valid_responses l.allow_held_key
        (toLowerCaseIfInsensitive s e.key) = true
    · by_cases h3 : l.persist = true <;> simp [h1, h2, h3]
    · simp [h1, h2]

theorem runHighPriorityHandler_eq (s : APIState) (h : HPHandler) (e : Event) :
    runHighPriorityHandler s h e =
      (firesHP s h e, if firesHP s h e then some (handlerCall h e) else none) := by
  unfold runHighPriorityHandler firesHP handlerCall
  by_cases h1 : computeRt h.usePerformanceRt h.startTime e < h.minimum_valid_rt
  · simp [h1]
  · by_cases h2 : isResponseValid s h.valid_responses h.allow_held_key
        (toLowerCaseIfInsensitive s e.key) = true <;> simp [h1, h2]

theorem toLower_congr (s0 s : APIState) (k : String)
    (hCase : s.areResponsesCaseSensitive = s0.areResponsesCaseSensitive) :
    toLowerCaseIfInsensitive s k = toLowerCaseIfInsensitive s0 k := by
  unfold toLowerCaseIfInsensitive
  rw [hCase]

theorem firesOn_congr (s0 s : APIState) (l : NormalListener) (e : Event)
    (hHeld : s.heldKeys = s0.heldKeys)
    (hCase : s.areResponsesCaseSensitive = s0.areResponsesCaseSensitive) :
    firesOn s l e = firesOn s0 l e := by
  unfold firesOn isResponseValid toLowerCaseIfInsensitive
  rw [hHeld, hCase]

theorem cancel_preserves (s : APIState) (n : Nat) :
    (cancelKeyboardResponse s n).heldKeys = s.heldKeys ∧
    (cancelKeyboardResponse s n).areResponsesCaseSensitive =
      s.areResponsesCaseSensitive ∧
    (cancelKeyboardResponse s n).minimumValidRt = s.minimumValidRt := by
  unfold cancelKeyboardResponse
  split
  · exact ⟨rfl, rfl, rfl⟩
  · split
    · exact ⟨rfl, rfl, rfl⟩
    · exact ⟨rfl, rfl, rfl⟩

theorem cancel_eq_filter (s : APIState) (n : Nat)
    (hP : ∀ p ∈ s.highPriorityTokenToHandler, p.1 ≠ n) :
    cancelKeyboardResponse s n =
      { s with listeners := s.listeners.filter (fun l => l.lid != n) } := by
  unfold cancelKeyboardResponse
  by_cases hA : s.listeners.any (fun l => l.lid == n) = true
  · rw [if_pos hA]
  · rw [if_neg hA]
    have hfind : s.highPriorityTokenToHandler.find? (fun p => p.1 == n) = none := by
      rw [List.find?_eq_none]
      intro p hp
      simp only [beq_iff_eq]
      exact hP p hp
    rw [hfind]
    have hself : s.listeners.filter (fun l => l.lid != n) = s.listeners := by
      rw [List.filter_eq_self]
      intro a ha
      simp only [bne_iff_ne, ne_eq]
      intro hcontra
      exact hA (List.any_eq_true.mpr ⟨a, ha, by simp [hcontra]⟩)
    rw [hself]

theorem cancel_no_lid (s : APIState) (n : Nat) :
    ∀ x ∈ (cancelKeyboardResponse s n).listeners, x.lid ≠ n := by
  intro x hx hxn
  unfold cancelKeyboardResponse at hx
  by_cases hA : s.listeners.any (fun l => l.lid == n) = true
  · rw [if_pos hA] at hx
    rw [List.mem_filter] at hx
    simp [hxn] at hx
  · rw [if_neg hA] at hx
    have hmem : x ∈ s.listeners := by
      rcases hfind : s.highPriorityTokenToHandler.find? (fun p => p.1 == n) with _ | p
      · rw [hfind] at hx
        exact hx
      · rw [hfind] at hx
        exact hx
    exact hA (List.any_eq_true.mpr ⟨x, hmem, by simp [hxn]⟩)

theorem dispatch_fold_spec (e : Event) (L : List NormalListener) :
    ∀ (s0 s : APIState) (cs : List CallbackCall),
      s.heldKeys = s0.heldKeys →
      s.areResponsesCaseSensitive = s0.areResponsesCaseSensitive →
      s.highPriorityTokenToHandler = s0.highPriorityTokenToHandler →
      (∀ l ∈ L, ∀ p ∈ s0.highPriorityTokenToHandler, p.1 ≠ l.lid) →
      L.foldl (dispatchStep e) (s, cs) =
        ({ s with listeners := s.listeners.filter (fun x => !removesLid s0 e L x) },
         cs ++ newCalls s0 e L) := by
  induction L with
  | nil =>
      intro s0 s cs _ _ _ _
      simp [newCalls, removesLid]
  | cons l L ih =>
      intro s0 s cs hHeld hCase hTok hP
      have hf : firesOn s l e = firesOn s0 l e := firesOn_congr s0 s l e hHeld hCase
      have hPl : ∀ p ∈ s0.highPriorityTokenToHandler, p.1 ≠ l.lid :=
        hP l (List.mem_cons_self l L)
      have hPL : ∀ x ∈ L, ∀ p ∈ s0.highPriorityTokenToHandler, p.1 ≠ x.lid :=
        fun x hx => hP x (List.mem_cons_of_mem l hx)
      rw [List.foldl_cons]
      by_cases hfire : firesOn s0 l e = true
      · by_cases hpers : l.persist = true
        · have hstep : dispatchStep e (s, cs) l = (s, cs ++ [listenerCall l e]) := by
            unfold dispatchStep
            rw [runNormalListener_eq, hf]
            simp [hfire, hpers]
          rw [hstep, ih s0 s (cs ++ [listenerCall l e]) hHeld hCase hTok hPL]
          have hlist : s.listeners.filter (fun x => !removesLid s0 e L x) =
              s.listeners.filter (fun x => !removesLid s0 e (l :: L) x) :=
            List.filter_congr (by
              intro x _
              simp [removesLid, List.any_cons, hfire, hpers])
          have hcalls : newCalls s0 e (l :: L) =
              listenerCall l e :: newCalls s0 e L := by
            simp [newCalls, List.filterMap_cons, hfire]
          rw [hlist, hcalls]
          simp
        · have hpersf : l.persist = false := by
            cases hb : l.persist
            · rfl
            · exact absurd hb hpers
          have hcanc : cancelKeyboardResponse s l.lid =
              { s with listeners := s.listeners.filter (fun x => x.lid != l.lid) } := by
            apply cancel_eq_filter
            rw [hTok]
            exact hPl
          have hstep : dispatchStep e (s, cs) l =
              ({ s with listeners := s.listeners.filter (fun x => x.lid != l.lid) },
               cs ++ [listenerCall l e]) := by
            unfold dispatchStep
            rw [runNormalListener_eq, hf]
            simp [hfire, hpersf, hcanc]
          rw [hstep,
            ih s0 { s with listeners := s.listeners.filter (fun x => x.lid != l.lid) }
              (cs ++ [listenerCall l e]) hHeld hCase hTok hPL]
          have hlist : (s.listeners.filter (fun x => x.lid != l.lid)).filter
                (fun x => !removesLid s0 e L x) =
              s.listeners.filter (fun x => !removesLid s0 e (l :: L) x) := by
            rw [List.filter_filter]
            apply List.filter_congr
            intro x _
            simp [removesLid, List.any_cons, hfire, hpersf]
            cases hx : x.lid == l.lid
            · simp [bne, hx]
            · simp [bne, hx]
          have hcalls : newCalls s0 e (l :: L) =
              listenerCall l e :: newCalls s0 e L := by
            simp [newCalls, List.filterMap_cons, hfire]
          rw [hlist, hcalls]
          simp
      · have hfiref : firesOn s0 l e = false := by
          cases hb : firesOn s0 l e
          · rfl
          · exact absurd hb hfire
        have hstep : dispatchStep e (s, cs) l = (s, cs) := by
          unfold dispatchStep
          rw [runNormalListener_eq, hf]
          simp [hfiref]
        rw [hstep, ih s0 s cs hHeld hCase hTok hPL]
        have hlist : s.listeners.filter (fun x => !removesLid s0 e L x) =
            s.listeners.filter (fun x => !removesLid s0 e (l :: L) x) :=
          List.filter_congr (by
            intro x _
            simp [removesLid, List.any_cons, hfiref])
        have hcalls : newCalls s0 e (l :: L) = newCalls s0 e L := by
          simp [newCalls, List.filterMap_cons, hfiref]
        rw [hlist, hcalls]

theorem runNormalListener_preserves (s : APIState) (l : NormalListener) (e : Event) :
    (runNormalListener s l e).1.heldKeys = s.heldKeys ∧
    (runNormalListener s l e).1.areResponsesCaseSensitive =
      s.areResponsesCaseSensitive := by
  rw [runNormalListener_eq]
  by_cases h : (firesOn s l e && !l.persist) = true
  · simp only [h, if_true]
    exact ⟨(cancel_preserves s l.lid).1, (cancel_preserves s l.lid).2.1⟩
  · simp only [h, if_false]
    exact ⟨rfl, rfl⟩

theorem dispatch_fold_preserves (e : Event) (L : List NormalListener) :
    ∀ (s : APIState) (cs : List CallbackCall),
      (L.foldl (dispatchStep e) (s, cs)).1.heldKeys = s.heldKeys ∧
      (L.foldl (dispatchStep e) (s, cs)).1.areResponsesCaseSensitive =
        s.areResponsesCaseSensitive := by
  induction L with
  | nil => intro s cs; exact ⟨rfl, rfl⟩
  | cons l L ih =>
      intro s cs
      rw [List.foldl_cons]
      have hstep : dispatchStep e (s, cs) l =
          ((runNormalListener s l e).1, cs ++ (runNormalListener s l e).2.toList) := rfl
      rw [hstep]
      obtain ⟨ha, hb⟩ := ih (runNormalListener s l e).1
        (cs ++ (runNormalListener s l e).2.toList)
      obtain ⟨hc, hd⟩ := runNormalListener_preserves s l e
      exact ⟨ha.trans hc, hb.trans hd⟩

theorem dispatch_fold_calls_key (e : Event) (L : List NormalListener) :
    ∀ (s : APIState) (cs : List CallbackCall),
      (∀ c ∈ cs, c.key = e.key) →
      ∀ c ∈ (L.foldl (dispatchStep e) (s, cs)).2, c.key = e.key := by
  induction L with
  | nil => intro s cs h; exact h
  | cons l L ih =>
      intro s cs h
      rw [List.foldl_cons]
      have hstep : dispatchStep e (s, cs) l =
          ((runNormalListener s l e).1, cs ++ (runNormalListener s l e).2.toList) := rfl
      rw [hstep]
      apply ih
      intro c hc
      rw [List.mem_append] at hc
      rcases hc with hc | hc
      · exact h c hc
      · rw [runNormalListener_eq] at hc
        by_cases hfire : firesOn s l e = true
        · simp [hfire] at hc
          rw [hc]
          rfl
        · simp [hfire] at hc

theorem keydown_normal_spec (s : APIState) (e : Event)
    (hq : s.highPriorityQueue = [])
    (hP : ∀ l ∈ s.listeners, ∀ p ∈ s.highPriorityTokenToHandler, p.1 ≠ l.lid) :
    rootKeydownListener s e =
      ({ s with
          listeners := s.listeners.filter (fun x => !removesLid s e s.listeners x),
          heldKeys := heldInsert s.heldKeys (toLowerCaseIfInsensitive s e.key) },
       newCalls s e s.listeners) := by
  unfold rootKeydownListener
  rw [hq]
  rw [dispatch_fold_spec e s.listeners s s [] rfl rfl rfl hP]
  rw [hq]
  rfl

theorem postConsume_preserves (s : APIState) (h : HPHandler) :
    (postConsume s h).heldKeys = s.heldKeys ∧
    (postConsume s h).areResponsesCaseSensitive = s.areResponsesCaseSensitive ∧
    (postConsume s h).listeners = s.listeners := by
  unfold postConsume
  split
  · exact ⟨rfl, rfl, rfl⟩
  · exact ⟨rfl, rfl, rfl⟩

theorem keydown_high_rejected (s : APIState) (e : Event) (h : HPHandler)
    (t : List HPHandler)
    (hq : s.highPriorityQueue = h :: t) (hf : firesHP s h e = false) :
    rootKeydownListener s e =
      ({ s with
          heldKeys := heldInsert s.heldKeys (toLowerCaseIfInsensitive s e.key) },
       []) := by
  unfold rootKeydownListener
  rw [hq]
  simp only [runHighPriorityHandler_eq, hf]
  simp [hq]

theorem keydown_high_consumed (s : APIState) (e : Event) (h : HPHandler)
    (t : List HPHandler)
    (hq : s.highPriorityQueue = h :: t) (hf : firesHP s h e = true) :
    rootKeydownListener s e =
      ({ postConsume s h with
          heldKeys := heldInsert s.heldKeys (toLowerCaseIfInsensitive s e.key) },
       [handlerCall h e]) := by
  unfold rootKeydownListener
  rw [hq]
  simp only [runHighPriorityHandler_eq, hf]
  simp only [if_true, Option.toList_some]
  rw [(postConsume_preserves s h).1,
    toLower_congr s (postConsume s h) e.key (postConsume_preserves s h).2.1]

theorem postConsume_spec (s : APIState) (h : HPHandler) (t : List HPHandler)
    (hq : s.highPriorityQueue = h :: t)
    (hm1 : s.highPriorityTokenToHandler =
      s.highPriorityQueue.map (fun x => (x.tid, x.hid)))
    (hm2 : s.highPriorityHandlerToToken =
      s.highPriorityQueue.map (fun x => (x.hid, x.tid)))
    (hnd1 : ∀ x ∈ t, x.tid ≠ h.tid) (hnd2 : ∀ x ∈ t, x.hid ≠ h.hid) :
    postConsume s h =
      { s with
          highPriorityQueue := t,
          highPriorityTokenToHandler := t.map (fun x => (x.tid, x.hid)),
          highPriorityHandlerToToken := t.map (fun x => (x.hid, x.tid)) } := by
  unfold postConsume
  have hfind : s.highPriorityHandlerToToken.find? (fun p => p.1 == h.hid) =
      some (h.hid, h.tid) := by
    rw [hm2, hq, List.map_cons]
    exact List.find?_cons_of_pos _ (by simp)
  rw [hfind]
  have ht1 : s.highPriorityTokenToHandler.filter (fun q => q.1 != (h.hid, h.tid).2) =
      t.map (fun x => (x.tid, x.hid)) := by
    rw [hm1, hq, List.map_cons, List.filter_cons]
    simp only [bne_self_eq_false, Bool.false_eq_true, if_false]
    rw [List.filter_eq_self]
    intro a ha
    rw [List.mem_map] at ha
    obtain ⟨x, hx, hax⟩ := ha
    rw [← hax]
    simp [hnd1 x hx]
  have ht2 : s.highPriorityHandlerToToken.filter (fun q => q.1 != h.hid) =
      t.map (fun x => (x.hid, x.tid)) := by
    rw [hm2, hq, List.map_cons, List.filter_cons]
    simp only [bne_self_eq_false, Bool.false_eq_true, if_false]
    rw [List.filter_eq_self]
    intro a ha
    rw [List.mem_map] at ha
    obtain ⟨x, hx, hax⟩ := ha
    rw [← hax]
    simp [hnd2 x hx]
  simp only [hfind, ht1, ht2, hq, List.tail_cons]

theorem eventStep_eq (acc : APIState × List CallbackCall) (e : Event) :
    eventStep acc e =
      ((rootKeydownListener acc.1 e).1, acc.2 ++ (rootKeydownListener acc.1 e).2) :=
  rfl

theorem processEvents_acc (es : List Event) :
    ∀ (s : APIState) (cs : List CallbackCall),
      es.foldl eventStep (s, cs) =
        ((processEvents s es).1, cs ++ (processEvents s es).2) := by
  induction es with
  | nil =>
      intro s cs
      simp [processEvents]
  | cons e es ih =>
      intro s cs
      rw [List.foldl_cons, eventStep_eq]
      rw [ih (rootKeydownListener s e).1 (cs ++ (rootKeydownListener s e).2)]
      have hR : processEvents s (e :: es) =
          ((processEvents (rootKeydownListener s e).1 es).1,
           (rootKeydownListener s e).2 ++
             (processEvents (rootKeydownListener s e).1 es).2) := by
        unfold processEvents
        rw [List.foldl_cons, eventStep_eq]
        rw [ih (rootKeydownListener s e).1 ([] ++ (rootKeydownListener s e).2)]
        simp [processEvents]
      rw [hR]
      simp

theorem processEvents_cons (s : APIState) (e : Event) (es : List Event) :
    processEvents s (e :: es) =
      ((processEvents (rootKeydownListener s e).1 es).1,
       (rootKeydownListener s e).2 ++
         (processEvents (rootKeydownListener s e).1 es).2) := by
  unfold processEvents
  rw [List.foldl_cons, eventStep_eq]
  rw [processEvents_acc es (rootKeydownListener s e).1 ([] ++ (rootKeydownListener s e).2)]
  simp [processEvents]

theorem newCalls_countP (s : APIState) (e : Event) (n : Nat)
    (L : List NormalListener) :
    (newCalls s e L).countP (fun c => c.cid == n) =
      L.countP (fun l => firesOn s l e && l.lid == n) := by
  induction L with
  | nil => rfl
  | cons l L ih =>
      rw [List.countP_cons]
      by_cases hf : firesOn s l e = true
      · have hcons : newCalls s e (l :: L) = listenerCall l e :: newCalls s e L := by
          simp [newCalls, List.filterMap_cons, hf]
        rw [hcons, List.countP_cons, ih]
        have : (listenerCall l e).cid = l.lid := rfl
        simp [this, hf]
      · have hff : firesOn s l e = false := by
          cases hb : firesOn s l e
          · rfl
          · exact absurd hb hf
        have hcons : newCalls s e (l :: L) = newCalls s e L := by
          simp [newCalls, List.filterMap_cons, hff]
        rw [hcons, ih]
        simp [hff]

theorem postConsume_queue_tail (s : APIState) (h : HPHandler) :
    (postConsume s h).highPriorityQueue = s.highPriorityQueue.tail := by
  unfold postConsume
  split
  · rfl
  · rfl

theorem postConsume_token_subset (s : APIState) (h : HPHandler) :
    ∀ p ∈ (postConsume s h).highPriorityTokenToHandler,
      p ∈ s.highPriorityTokenToHandler := by
  intro p hp
  unfold postConsume at hp
  rcases hfind : s.highPriorityHandlerToToken.find? (fun q => q.1 == h.hid) with _ | q
  · rw [hfind] at hp
    exact hp
  · rw [hfind] at hp
    exact (List.mem_filter.mp hp).1

theorem oneShot_step (n : Nat) (s : APIState) (e : Event) (hI : OneShotInv n s) :
    OneShotInv n (rootKeydownListener s e).1 ∧
    (rootKeydownListener s e).2.countP (fun c => c.cid == n) +
      (rootKeydownListener s e).1.listeners.countP (fun l => l.lid == n) ≤
      s.listeners.countP (fun l => l.lid == n) := by
  obtain ⟨hDisj, hHid, hCount, hPers⟩ := hI
  rcases hqe : s.highPriorityQueue with _ | ⟨h, t⟩
  · rw [keydown_normal_spec s e hqe hDisj]
    simp only
    constructor
    · refine ⟨?_, ?_, ?_, ?_⟩
      · intro l hl p hp
        exact hDisj l (List.mem_filter.mp hl).1 p hp
      · intro x hx
        exact hHid x hx
      · calc (s.listeners.filter
              (fun x => !removesLid s e s.listeners x)).countP (fun l => l.lid == n)
            ≤ s.listeners.countP (fun l => l.lid == n) := by
              rw [List.countP_filter]
              exact List.countP_mono_left (fun a _ hp => (Bool.and_eq_true _ _ |>.mp hp).1)
          _ ≤ 1 := hCount
      · intro l hl
        exact hPers l (List.mem_filter.mp hl).1
    · rw [newCalls_countP, List.countP_filter]
      by_cases hA : s.listeners.any (fun l => firesOn s l e && l.lid == n) = true
      · rw [List.any_eq_true] at hA
        obtain ⟨l0, hl0, hprop⟩ := hA
        obtain ⟨hfire0, heq0⟩ := Bool.and_eq_true _ _ |>.mp hprop
        have hlid0 : l0.lid = n := by simpa using heq0
        have hpers0 : l0.persist = false := hPers l0 hl0 hlid0
        have hB : s.listeners.countP
            (fun a => a.lid == n && !removesLid s e s.listeners a) = 0 := by
          rw [List.countP_eq_zero]
          intro a _ hcontra
          obtain ⟨haeq, hanot⟩ := Bool.and_eq_true _ _ |>.mp hcontra
          have halid : a.lid = n := by simpa using haeq
          have hrem : removesLid s e s.listeners a = true := by
            unfold removesLid
            rw [List.any_eq_true]
            refine ⟨l0, hl0, ?_⟩
            simp [hfire0, hpers0, halid, hlid0]
          rw [hrem] at hanot
          simp at hanot
        rw [hB]
        have hAle : s.listeners.countP (fun l => firesOn s l e && l.lid == n) ≤
            s.listeners.countP (fun l => l.lid == n) :=
          List.countP_mono_left (fun a _ hp => (Bool.and_eq_true _ _ |>.mp hp).2)
        omega
      · have hAz : s.listeners.countP (fun l => firesOn s l e && l.lid == n) = 0 := by
          rw [List.countP_eq_zero]
          intro a ha hcontra
          exact hA (List.any_eq_true.mpr ⟨a, ha, hcontra⟩)
        rw [hAz]
        have hBle : s.listeners.countP
            (fun a => a.lid == n && !removesLid s e s.listeners a) ≤
            s.listeners.countP (fun l => l.lid == n) :=
          List.countP_mono_left (fun a _ hp => (Bool.and_eq_true _ _ |>.mp hp).1)
        omega
  · have hhidn : h.hid ≠ n := hHid h (by rw [hqe]; exact List.mem_cons_self h t)
    cases hf : firesHP s h e
    · rw [keydown_high_rejected s e h t hqe hf]
      simp only
      refine ⟨⟨fun l hl p hp => hDisj l hl p hp, fun x hx => hHid x hx, hCount,
        fun l hl => hPers l hl⟩, ?_⟩
      simp
    · rw [keydown_high_consumed s e h t hqe hf]
      simp only
      constructor
      · refine ⟨?_, ?_, ?_, ?_⟩
        · intro l hl p hp
          rw [(postConsume_preserves s h).2.2] at hl
          exact hDisj l hl p (postConsume_token_subset s h p hp)
        · intro x hx
          rw [postConsume_queue_tail, hqe, List.tail_cons] at hx
          exact hHid x (by rw [hqe]; exact List.mem_cons_of_mem h hx)
        · rw [(postConsume_preserves s h).2.2]
          exact hCount
        · intro l hl
          rw [(postConsume_preserves s h).2.2] at hl
          exact hPers l hl
      · rw [(postConsume_preserves s h).2.2]
        have hcc : (handlerCall h e).cid = h.hid := rfl
        have : ([handlerCall h e].countP (fun c => c.cid == n)) = 0 := by
          simp [List.countP_cons, hcc, hhidn]
        rw [this]
        omega

theorem oneShot_processEvents (n : Nat) (es : List Event) :
    ∀ s : APIState, OneShotInv n s →
      (processEvents s es).2.countP (fun c => c.cid == n) +
        (processEvents s es).1.listeners.countP (fun l => l.lid == n) ≤
        s.listeners.countP (fun l => l.lid == n) := by
  induction es with
  | nil =>
      intro s _
      simp [processEvents]
  | cons e es ih =>
      intro s hI
      rw [processEvents_cons]
      simp only [List.countP_append]
      obtain ⟨hInv2, hle⟩ := oneShot_step n s e hI
      have hrest := ih (rootKeydownListener s e).1 hInv2
      omega

/-- Claim C1: for every key-down event arriving while the high-priority queue
is non-empty, no normal listener is invoked: every callback the dispatch
emits belongs to the head handler, so the normal listener set receives zero
invocations. -/
theorem c1_priority_queue_excludes_normal_listeners
    (s : APIState) (e : Event) (h : HPHandler) (t : List HPHandler)
    (hq : s.highPriorityQueue = h :: t)
    (hids : ∀ l ∈ s.listeners, l.lid ≠ h.hid) :
    ∀ c ∈ (rootKeydownListener s e).2,
      c.cid = h.hid ∧ ∀ l ∈ s.listeners, c.cid ≠ l.lid := by
  intro c hc
  cases hf : firesHP s h e
  · rw [keydown_high_rejected s e h t hq hf] at hc
    simp at hc
  · rw [keydown_high_consumed s e h t hq hf] at hc
    simp only [List.mem_singleton] at hc
    subst hc
    refine ⟨rfl, ?_⟩
    intro l hl hcl
    exact hids l hl (by rw [← hcl]; rfl)

theorem c1_witness :
    (wS1A.highPriorityQueue = wA :: [] ∧ ∀ l ∈ wS1A.listeners, l.lid ≠ wA.hid) ∧
    ∀ c ∈ (rootKeydownListener wS1A wEslow).2,
      c.cid = wA.hid ∧ ∀ l ∈ wS1A.listeners, c.cid ≠ l.lid :=
  ⟨⟨by decide, by decide⟩,
   c1_priority_queue_excludes_normal_listeners wS1A wEslow wA [] (by decide) (by decide)⟩

/-- Claim C2: with a non-empty high-priority queue only the head handler is
invoked; when it reports the event consumed it is popped and its token is
purged from both cross-index maps, and when it reports not consumed it stays
at the head with the queue and both maps untouched (strict FIFO). -/
theorem c2_fifo_head_only
    (s : APIState) (e : Event) (h : HPHandler) (t : List HPHandler)
    (hq : s.highPriorityQueue = h :: t)
    (hm1 : s.highPriorityTokenToHandler =
      s.highPriorityQueue.map (fun x => (x.tid, x.hid)))
    (hm2 : s.highPriorityHandlerToToken =
      s.highPriorityQueue.map (fun x => (x.hid, x.tid)))
    (hnd1 : ∀ x ∈ t, x.tid ≠ h.tid) (hnd2 : ∀ x ∈ t, x.hid ≠ h.hid) :
    (∀ c ∈ (rootKeydownListener s e).2, c.cid = h.hid) ∧
    (firesHP s h e = true →
      (rootKeydownListener s e).1.highPriorityQueue = t ∧
      (rootKeydownListener s e).1.highPriorityTokenToHandler =
        t.map (fun x => (x.tid, x.hid)) ∧
      (rootKeydownListener s e).1.highPriorityHandlerToToken =
        t.map (fun x => (x.hid, x.tid)) ∧
      (rootKeydownListener s e).2 = [handlerCall h e]) ∧
    (firesHP s h e = false →
      (rootKeydownListener s e).1.highPriorityQueue = h :: t ∧
      (rootKeydownListener s e).1.highPriorityTokenToHandler =
        s.highPriorityTokenToHandler ∧
      (rootKeydownListener s e).1.highPriorityHandlerToToken =
        s.highPriorityHandlerToToken ∧
      (rootKeydownListener s e).2 = []) := by
  refine ⟨?_, ?_, ?_⟩
  · intro c hc
    cases hf : firesHP s h e
    · rw [keydown_high_rejected s e h t hq hf] at hc
      simp at hc
    · rw [keydown_high_consumed s e h t hq hf] at hc
      simp only [List.mem_singleton] at hc
      subst hc
      rfl
  · intro hf
    rw [keydown_high_consumed s e h t hq hf,
      postConsume_spec s h t hq hm1 hm2 hnd1 hnd2]
    exact ⟨rfl, rfl, rfl, rfl⟩
  · intro hf
    rw [keydown_high_rejected s e h t hq hf]
    exact ⟨hq, rfl, rfl, rfl⟩

theorem c2_witness :
    (wS2.highPriorityQueue = wA :: [wB] ∧ firesHP wS2 wA wEb = false ∧
      firesHP (rootKeydownListener wS2 wEb).1 wA wEa = true) ∧
    ((rootKeydownListener wS2 wEb).1.highPriorityQueue = wA :: [wB] ∧
      (rootKeydownListener wS2 wEb).2 = []) ∧
    ((rootKeydownListener (rootKeydownListener wS2 wEb).1 wEa).1.highPriorityQueue =
        [wB] ∧
      (rootKeydownListener (rootKeydownListener wS2 wEb).1 wEa).2 =
        [handlerCall wA wEa]) := by
  refine ⟨by decide, ?_, ?_⟩
  · have hr := (c2_fifo_head_only wS2 wEb wA [wB] (by decide) (by decide) (by decide)
      (by decide) (by decide)).2.2 (by decide)
    exact ⟨hr.1, hr.2.2.2⟩
  · have hr := (c2_fifo_head_only (rootKeydownListener wS2 wEb).1 wEa wA [wB]
      (by decide) (by decide) (by decide) (by decide) (by decide)).2.1 (by decide)
    exact ⟨hr.1, hr.2.2.2⟩

/-- Claim C3: a normal listener registered with persist = false fires at most
once over any sequence of key-down events, and deregistration happens before
invocation: whenever its closure emits a call, no listener with its id is
left in the registry in the state passed on to the callback. -/
theorem c3_one_shot_fires_at_most_once
    (s : APIState) (l : NormalListener) (e : Event) (es : List Event)
    (hmem : l ∈ s.listeners) (hpers : l.persist = false)
    (hInv : OneShotInv l.lid s) :
    ((runNormalListener s l e).2.isSome →
      ∀ x ∈ (runNormalListener s l e).1.listeners, x.lid ≠ l.lid) ∧
    (processEvents s es).2.countP (fun c => c.cid == l.lid) ≤ 1 := by
  constructor
  · intro hsome x hx
    rw [runNormalListener_eq] at hsome hx
    cases hfire : firesOn s l e
    · rw [hfire] at hsome
      simp at hsome
    · simp only [hfire, hpers, Bool.not_false, Bool.and_true, if_true] at hx
      exact cancel_no_lid s l.lid x hx
  · have hseq := oneShot_processEvents l.lid es s hInv
    have hc1 : s.listeners.countP (fun x => x.lid == l.lid) ≤ 1 := hInv.2.2.1
    omega

theorem c3_witness :
    (wL1 ∈ wS1.listeners ∧ wL1.persist = false ∧ OneShotInv wL1.lid wS1) ∧
    ((runNormalListener wS1 wL1 wE1).2.isSome →
      ∀ x ∈ (runNormalListener wS1 wL1 wE1).1.listeners, x.lid ≠ wL1.lid) ∧
    (processEvents wS1 [wE1, wE2]).2.countP (fun c => c.cid == wL1.lid) ≤ 1 :=
  ⟨⟨by decide, by decide, by decide⟩,
   c3_one_shot_fires_at_most_once wS1 wL1 wE1 [wE1, wE2]
     (by decide) (by decide) (by decide)⟩

theorem heldInsert_contains_self (hs : List String) (k : String) :
    (heldInsert hs k).contains k = true := by
  unfold heldInsert
  by_cases hc : hs.contains k = true
  · rw [if_pos hc]
    exact hc
  · rw [if_neg hc]
    exact List.elem_eq_true_of_mem
      (List.mem_append_right hs (List.mem_singleton.mpr rfl))

theorem heldInsert_contains_mono (hs : List String) (k k2 : String)
    (h : hs.contains k = true) : (heldInsert hs k2).contains k = true := by
  unfold heldInsert
  by_cases hc : hs.contains k2 = true
  · rw [if_pos hc]
    exact h
  · rw [if_neg hc]
    exact List.elem_eq_true_of_mem
      (List.mem_append_left [k2] (List.mem_of_elem_eq_true h))

theorem second_press_suppressed
    (s2 : APIState) (e2 : Event) (n : Nat)
    (hq : s2.highPriorityQueue = [])
    (hP : ∀ x ∈ s2.listeners, ∀ p ∈ s2.highPriorityTokenToHandler, p.1 ≠ x.lid)
    (hn : ∀ x ∈ s2.listeners, x.lid = n →
      x.allow_held_key = false ∧
      s2.heldKeys.contains (toLowerCaseIfInsensitive s2 e2.key) = true) :
    (rootKeydownListener s2 e2).2.countP (fun c => c.cid == n) = 0 := by
  rw [keydown_normal_spec s2 e2 hq hP]
  show (newCalls s2 e2 s2.listeners).countP (fun c => c.cid == n) = 0
  rw [newCalls_countP, List.countP_eq_zero]
  intro a ha hc
  obtain ⟨haf, hal⟩ := (Bool.and_eq_true _ _).mp hc
  obtain ⟨hahk, hcont⟩ := hn a ha (by simpa using hal)
  unfold firesOn at haf
  have hval : isResponseValid s2 a.valid_responses a.allow_held_key
      (toLowerCaseIfInsensitive s2 e2.key) = false := by
    unfold isResponseValid
    rw [hahk]
    have hmem2 : toLowerCaseIfInsensitive s2 e2.key ∈ s2.heldKeys :=
      List.mem_of_elem_eq_true hcont
    simp [hmem2]
  rw [hval] at haf
  simp at haf

/-- Claim C4: for a listener registered with allow_held_key = false, a
key-down for key K followed by a second key-down for K with no intervening
key-up yields exactly one valid match for that listener, on the first event:
the key is added to the held set only after the first dispatch completes, so
the first press passes the held-key check and the repeat is rejected by it. -/
theorem c4_held_key_suppression
    (s : APIState) (e1 e2 : Event) (L1 L2 : List NormalListener)
    (l : NormalListener)
    (hq : s.highPriorityQueue = [])
    (hP : ∀ x ∈ s.listeners, ∀ p ∈ s.highPriorityTokenToHandler, p.1 ≠ x.lid)
    (hL : s.listeners = L1 ++ l :: L2)
    (huniq : ∀ x ∈ L1 ++ L2, x.lid ≠ l.lid)
    (hahk : l.allow_held_key = false)
    (hkey : e2.key = e1.key)
    (hfires : firesOn s l e1 = true) :
    (rootKeydownListener s e1).2.countP (fun c => c.cid == l.lid) = 1 ∧
    (rootKeydownListener s e1).1.heldKeys.contains
      (toLowerCaseIfInsensitive s e1.key) = true ∧
    (rootKeydownListener (rootKeydownListener s e1).1 e2).2.countP
      (fun c => c.cid == l.lid) = 0 := by
  have hspec := keydown_normal_spec s e1 hq hP
  have hmem : l ∈ s.listeners := by
    rw [hL]
    exact List.mem_append_right L1 (List.mem_cons_self l L2)
  refine ⟨?_, ?_, ?_⟩
  · rw [hspec]
    show (newCalls s e1 s.listeners).countP (fun c => c.cid == l.lid) = 1
    rw [newCalls_countP, hL, List.countP_append, List.countP_cons]
    have h1 : L1.countP (fun x => firesOn s x e1 && x.lid == l.lid) = 0 := by
      rw [List.countP_eq_zero]
      intro a ha hc
      exact huniq a (List.mem_append_left L2 ha)
        (by simpa using ((Bool.and_eq_true _ _).mp hc).2)
    have h2 : L2.countP (fun x => firesOn s x e1 && x.lid == l.lid) = 0 := by
      rw [List.countP_eq_zero]
      intro a ha hc
      exact huniq a (List.mem_append_right L1 ha)
        (by simpa using ((Bool.and_eq_true _ _).mp hc).2)
    have h3 : (firesOn s l e1 && l.lid == l.lid) = true := by
      rw [hfires]
      simp
    rw [h1, h2, if_pos h3]
  · rw [hspec]
    exact heldInsert_contains_self _ _
  · refine second_press_suppressed (rootKeydownListener s e1).1 e2 l.lid ?_ ?_ ?_
    · rw [hspec]
      exact hq
    · rw [hspec]
      intro x hx p hp
      exact hP x (List.mem_filter.mp hx).1 p hp
    · rw [hspec]
      intro x hx hxl
      have hx' : x ∈ s.listeners := (List.mem_filter.mp hx).1
      have hxeq : x = l := by
        rw [hL] at hx'
        rcases List.mem_append.mp hx' with h' | h'
        · exact absurd hxl (huniq x (List.mem_append_left L2 h'))
        · rcases List.mem_cons.mp h' with h'' | h''
          · exact h''
          · exact absurd hxl (huniq x (List.mem_append_right L1 h''))
      subst hxeq
      refine ⟨hahk, ?_⟩
      have hkk : toLowerCaseIfInsensitive
          ({ s with
              listeners :=
                s.listeners.filter (fun y => !removesLid s e1 s.listeners y),
              heldKeys :=
                heldInsert s.heldKeys (toLowerCaseIfInsensitive s e1.key) } :
            APIState) e2.key =
          toLowerCaseIfInsensitive s e1.key := by
        rw [hkey]
        rfl
      rw [hkk]
      exact heldInsert_contains_self _ _

theorem c4_witness :
    (wSp.highPriorityQueue = [] ∧ wSp.listeners = [] ++ wLp :: [] ∧
      wLp.allow_held_key = false ∧ wEa.key = wEa.key ∧
      firesOn wSp wLp wEa = true) ∧
    (rootKeydownListener wSp wEa).2.countP (fun c => c.cid == wLp.lid) = 1 ∧
    (rootKeydownListener wSp wEa).1.heldKeys.contains
      (toLowerCaseIfInsensitive wSp wEa.key) = true ∧
    (rootKeydownListener (rootKeydownListener wSp wEa).1 wEa).2.countP
      (fun c => c.cid == wLp.lid) = 0 :=
  ⟨⟨by decide, by decide, by decide, rfl, by decide⟩,
   c4_held_key_suppression wSp wEa wEa [] [] wLp (by decide) (by decide)
     (by decide) (by decide) (by decide) rfl (by decide)⟩

/-- Claim C5: a key-down whose computed reaction time is strictly below the
listener's minimum_valid_rt is ignored: the callback is not invoked and the
listener is not removed, for both the normal path (closure returns with the
state unchanged, the listener stays registered and no call carries its id)
and the high-priority path (the head stays at the head and no call is
emitted). -/
theorem c5_minimum_rt_gate
    (s sh : APIState) (l : NormalListener) (h : HPHandler) (t : List HPHandler)
    (e : Event)
    (hrtl : computeRt l.usePerformanceRt l.startTime e < l.minimum_valid_rt)
    (hrth : computeRt h.usePerformanceRt h.startTime e < h.minimum_valid_rt)
    (hq : s.highPriorityQueue = [])
    (hP : ∀ x ∈ s.listeners, ∀ p ∈ s.highPriorityTokenToHandler, p.1 ≠ x.lid)
    (hmem : l ∈ s.listeners)
    (huniq : ∀ x ∈ s.listeners, x.lid = l.lid → x = l)
    (hqh : sh.highPriorityQueue = h :: t) :
    runNormalListener s l e = (s, none) ∧
    l ∈ (rootKeydownListener s e).1.listeners ∧
    (rootKeydownListener s e).2.countP (fun c => c.cid == l.lid) = 0 ∧
    (rootKeydownListener sh e).1.highPriorityQueue = h :: t ∧
    (rootKeydownListener sh e).2 = [] := by
  have hfl : firesOn s l e = false := by
    unfold firesOn
    simp [hrtl]
  have hfh : firesHP sh h e = false := by
    unfold firesHP
    simp [hrth]
  have hspec := keydown_normal_spec s e hq hP
  refine ⟨?_, ?_, ?_, ?_, ?_⟩
  · rw [runNormalListener_eq, hfl]
    simp
  · rw [hspec]
    show l ∈ s.listeners.filter (fun x => !removesLid s e s.listeners x)
    rw [List.mem_filter]
    refine ⟨hmem, ?_⟩
    have hrem : removesLid s e s.listeners l = false := by
      unfold removesLid
      rw [List.any_eq_false]
      intro y hy hcontra
      simp only [Bool.and_eq_true] at hcontra
      obtain ⟨⟨hfy, _⟩, hbeq⟩ := hcontra
      have hly : l.lid = y.lid := by simpa using hbeq
      have hyl : y = l := huniq y hy hly.symm
      subst hyl
      rw [hfl] at hfy
      simp at hfy
    rw [hrem]
    rfl
  · rw [hspec]
    show (newCalls s e s.listeners).countP (fun c => c.cid == l.lid) = 0
    rw [newCalls_countP, List.countP_eq_zero]
    intro a ha hc
    obtain ⟨haf, hal⟩ := (Bool.and_eq_true _ _).mp hc
    have haeq : a = l := huniq a ha (by simpa using hal)
    subst haeq
    rw [hfl] at haf
    simp at haf
  · rw [keydown_high_rejected sh e h t hqh hfh]
    exact hqh
  · rw [keydown_high_rejected sh e h t hqh hfh]

theorem c5_witness :
    (computeRt wL1.usePerformanceRt wL1.startTime wEfast < wL1.minimum_valid_rt ∧
      computeRt wH.usePerformanceRt wH.startTime wEfast < wH.minimum_valid_rt ∧
      wL1 ∈ wS1.listeners ∧ wSH.highPriorityQueue = wH :: []) ∧
    runNormalListener wS1 wL1 wEfast = (wS1, none) ∧
    wL1 ∈ (rootKeydownListener wS1 wEfast).1.listeners ∧
    (rootKeydownListener wS1 wEfast).2.countP (fun c => c.cid == wL1.lid) = 0 ∧
    (rootKeydownListener wSH wEfast).1.highPriorityQueue = wH :: [] ∧
    (rootKeydownListener wSH wEfast).2 = [] :=
  ⟨⟨by decide, by decide, by decide, by decide⟩,
   c5_minimum_rt_gate wS1 wSH wL1 wH [] wEfast (by decide) (by decide) (by decide)
     (by decide) (by decide) (by decide) (by decide)⟩

theorem find?_append_false {α : Type} (p : α → Bool) (L1 L2 : List α)
    (h : ∀ a ∈ L1, p a = false) : (L1 ++ L2).find? p = L2.find? p := by
  induction L1 with
  | nil => rfl
  | cons a L1 ih =>
      rw [List.cons_append, List.find?_cons_of_neg]
      · exact ih (fun x hx => h x (List.mem_cons_of_mem a hx))
      · rw [h a (List.mem_cons_self a L1)]
        simp

theorem eraseP_append_false {α : Type} (p : α → Bool) (L1 L2 : List α)
    (h : ∀ a ∈ L1, p a = false) : (L1 ++ L2).eraseP p = L1 ++ L2.eraseP p := by
  induction L1 with
  | nil => rfl
  | cons a L1 ih =>
      rw [List.cons_append, List.eraseP_cons_of_neg, ih
        (fun x hx => h x (List.mem_cons_of_mem a hx)), List.cons_append]
      rw [h a (List.mem_cons_self a L1)]
      simp

/-- Claim C6: cancel(handle) routes by handle kind: a handle found among the
normal listeners is removed from that set with nothing else changed; a
high-priority token is removed from the queue at whatever position its
handler occupies, with both cross-index maps purged of the pair; a handle
matching neither leaves the state untouched, so cancellation is idempotent. -/
theorem c6_cancel_routing
    (s1 s2 s3 : APIState) (n1 n2 n3 : Nat) (h : HPHandler)
    (Q1 Q2 : List HPHandler)
    (ha : s1.listeners.any (fun x => x.lid == n1) = true)
    (hb0 : s2.listeners.any (fun x => x.lid == n2) = false)
    (hbq : s2.highPriorityQueue = Q1 ++ h :: Q2)
    (hbt : h.tid = n2)
    (hm1 : s2.highPriorityTokenToHandler =
      s2.highPriorityQueue.map (fun x => (x.tid, x.hid)))
    (hm2 : s2.highPriorityHandlerToToken =
      s2.highPriorityQueue.map (fun x => (x.hid, x.tid)))
    (hq1t : ∀ x ∈ Q1, x.tid ≠ h.tid) (hq2t : ∀ x ∈ Q2, x.tid ≠ h.tid)
    (hq1h : ∀ x ∈ Q1, x.hid ≠ h.hid) (hq2h : ∀ x ∈ Q2, x.hid ≠ h.hid)
    (hc0 : s3.listeners.any (fun x => x.lid == n3) = false)
    (hc1 : ∀ p ∈ s3.highPriorityTokenToHandler, p.1 ≠ n3) :
    cancelKeyboardResponse s1 n1 =
      { s1 with listeners := s1.listeners.filter (fun x => x.lid != n1) } ∧
    cancelKeyboardResponse s2 n2 =
      { s2 with
          highPriorityQueue := Q1 ++ Q2,
          highPriorityTokenToHandler := (Q1 ++ Q2).map (fun x => (x.tid, x.hid)),
          highPriorityHandlerToToken :=
            (Q1 ++ Q2).map (fun x => (x.hid, x.tid)) } ∧
    cancelKeyboardResponse s3 n3 = s3 := by
  refine ⟨?_, ?_, ?_⟩
  · unfold cancelKeyboardResponse
    rw [if_pos ha]
  · unfold cancelKeyboardResponse
    rw [if_neg (by rw [hb0]; simp)]
    have hnom : ∀ a ∈ Q1.map (fun x => (x.tid, x.hid)),
        (a.1 == n2) = false := by
      intro a hamem
      rw [List.mem_map] at hamem
      obtain ⟨x, hx, hax⟩ := hamem
      rw [← hax, ← hbt]
      simpa using hq1t x hx
    have hfind : s2.highPriorityTokenToHandler.find? (fun p => p.1 == n2) =
        some (h.tid, h.hid) := by
      rw [hm1, hbq, List.map_append, List.map_cons,
        find?_append_false _ _ _ hnom,
        List.find?_cons_of_pos _ (by simp [hbt])]
    have hkeep1 : (Q1.map (fun x => (x.tid, x.hid))).filter
        (fun q => q.1 != n2) = Q1.map (fun x => (x.tid, x.hid)) := by
      rw [List.filter_eq_self]
      intro a hamem
      rw [List.mem_map] at hamem
      obtain ⟨x, hx, hax⟩ := hamem
      rw [← hax, ← hbt]
      simpa using hq1t x hx
    have hkeep2 : (Q2.map (fun x => (x.tid, x.hid))).filter
        (fun q => q.1 != n2) = Q2.map (fun x => (x.tid, x.hid)) := by
      rw [List.filter_eq_self]
      intro a hamem
      rw [List.mem_map] at hamem
      obtain ⟨x, hx, hax⟩ := hamem
      rw [← hax, ← hbt]
      simpa using hq2t x hx
    have hkeep3 : (Q1.map (fun x => (x.hid, x.tid))).filter
        (fun q => q.1 != h.hid) = Q1.map (fun x => (x.hid, x.tid)) := by
      rw [List.filter_eq_self]
      intro a hamem
      rw [List.mem_map] at hamem
      obtain ⟨x, hx, hax⟩ := hamem
      rw [← hax]
      simpa using hq1h x hx
    have hkeep4 : (Q2.map (fun x => (x.hid, x.tid))).filter
        (fun q => q.1 != h.hid) = Q2.map (fun x => (x.hid, x.tid)) := by
      rw [List.filter_eq_self]
      intro a hamem
      rw [List.mem_map] at hamem
      obtain ⟨x, hx, hax⟩ := hamem
      rw [← hax]
      simpa using hq2h x hx
    have herase : s2.highPriorityQueue.eraseP
        (fun x => x.hid == h.hid) = Q1 ++ Q2 := by
      rw [hbq, eraseP_append_false _ Q1 _
        (by intro a hamem; simpa using hq1h a hamem),
        List.eraseP_cons_of_pos (by simp)]
    have hfilt1 : s2.highPriorityTokenToHandler.filter (fun q => q.1 != n2) =
        (Q1 ++ Q2).map (fun x => (x.tid, x.hid)) := by
      rw [hm1, hbq, List.map_append, List.map_cons, List.filter_append,
        List.filter_cons, if_neg (by simp [← hbt]), hkeep1, hkeep2,
        List.map_append]
    have hfilt2 : s2.highPriorityHandlerToToken.filter
        (fun q => q.1 != h.hid) =
        (Q1 ++ Q2).map (fun x => (x.hid, x.tid)) := by
      rw [hm2, hbq, List.map_append, List.map_cons, List.filter_append,
        List.filter_cons, if_neg (by simp), hkeep3, hkeep4, List.map_append]
    simp only [hfind, herase, hfilt1, hfilt2]
  · unfold cancelKeyboardResponse
    rw [if_neg (by rw [hc0]; simp)]
    have hfindn : s3.highPriorityTokenToHandler.find? (fun p => p.1 == n3) =
        none := by
      rw [List.find?_eq_none]
      intro p hp
      simp [hc1 p hp]
    simp only [hfindn]

theorem c6_witness :
    (wS1.listeners.any (fun x => x.lid == 1) = true ∧
      wS2.listeners.any (fun x => x.lid == 13) = false ∧
      wS2.highPriorityQueue = [wA] ++ wB :: [] ∧ wB.tid = 13 ∧
      emptyState.listeners.any (fun x => x.lid == 99) = false) ∧
    cancelKeyboardResponse wS1 1 =
      { wS1 with listeners := wS1.listeners.filter (fun x => x.lid != 1) } ∧
    cancelKeyboardResponse wS2 13 =
      { wS2 with
          highPriorityQueue := [wA] ++ [],
          highPriorityTokenToHandler :=
            (([wA] ++ []) : List HPHandler).map (fun x => (x.tid, x.hid)),
          highPriorityHandlerToToken :=
            (([wA] ++ []) : List HPHandler).map (fun x => (x.hid, x.tid)) } ∧
    cancelKeyboardResponse emptyState 99 = emptyState :=
  ⟨⟨by decide, by decide, by decide, by decide, by decide⟩,
   c6_cancel_routing wS1 wS2 emptyState 1 13 99 wB [wA] [] (by decide) (by decide)
     (by decide) (by decide) (by decide) (by decide) (by decide) (by decide)
     (by decide) (by decide) (by decide) (by decide)⟩

/-- Claim C7: cancelAll() empties the normal listener set, the high-priority
queue, and both cross-index maps, leaves the held-key set exactly as it was,
and a key-down dispatched afterwards invokes zero callbacks. -/
theorem c7_cancel_all_clears_registry (s : APIState) (e : Event) :
    (cancelAllKeyboardResponses s).listeners = [] ∧
    (cancelAllKeyboardResponses s).highPriorityQueue = [] ∧
    (cancelAllKeyboardResponses s).highPriorityTokenToHandler = [] ∧
    (cancelAllKeyboardResponses s).highPriorityHandlerToToken = [] ∧
    (cancelAllKeyboardResponses s).heldKeys = s.heldKeys ∧
    (rootKeydownListener (cancelAllKeyboardResponses s) e).2 = [] := by
  refine ⟨rfl, rfl, rfl, rfl, rfl, ?_⟩
  rw [keydown_normal_spec (cancelAllKeyboardResponses s) e rfl
    (by intro x hx; simp [cancelAllKeyboardResponses] at hx)]
  rfl

/-- Claim C8: compareKeys returns true for null/null, false when exactly one
argument is null, compares two strings lower-cased in case-insensitive mode
and exactly in case-sensitive mode (so A versus a is true only under the
insensitive default), and for a non-string non-null argument emits a
diagnostic and returns an indeterminate result instead of throwing. -/
theorem c8_compare_keys_semantics (cs : Bool) (a b : String) (k : KeyArg) :
    compareKeys cs KeyArg.null KeyArg.null = (some true, false) ∧
    compareKeys cs (KeyArg.str a) KeyArg.null = (some false, false) ∧
    compareKeys cs KeyArg.null (KeyArg.str b) = (some false, false) ∧
    compareKeys true (KeyArg.str a) (KeyArg.str b) = (some (a == b), false) ∧
    compareKeys false (KeyArg.str a) (KeyArg.str b) =
      (some (lowerString a == lowerString b), false) ∧
    compareKeys false (KeyArg.str "A") (KeyArg.str "a") = (some true, false) ∧
    compareKeys true (KeyArg.str "A") (KeyArg.str "a") = (some false, false) ∧
    compareKeys cs KeyArg.invalid k = (none, true) ∧
    compareKeys cs k KeyArg.invalid = (none, true) := by
  refine ⟨rfl, rfl, rfl, rfl, rfl, by decide, by decide, ?_, ?_⟩
  · cases k <;> rfl
  · cases k <;> rfl

/-- Claim C9: the callback always receives the raw, un-normalized event key:
in the case-insensitive default, listener validation, the held-key set, and
the registration-time normalization of explicit response lists all use the
lower-cased key, yet every emitted call carries e.key exactly as delivered,
for both normal and high-priority listeners. -/
theorem c9_callback_receives_raw_key
    (s : APIState) (e : Event) (l : NormalListener) (h : HPHandler)
    (o : GetKeyboardResponseOptions) (ks : List String)
    (hcase : s.areResponsesCaseSensitive = false) :
    (∀ c ∈ (rootKeydownListener s e).2, c.key = e.key) ∧
    firesOn s l e =
      (!(decide (computeRt l.usePerformanceRt l.startTime e <
          l.minimum_valid_rt)) &&
        isResponseValid s l.valid_responses l.allow_held_key
          (lowerString e.key)) ∧
    firesHP s h e =
      (!(decide (computeRt h.usePerformanceRt h.startTime e <
          h.minimum_valid_rt)) &&
        isResponseValid s h.valid_responses h.allow_held_key
          (lowerString e.key)) ∧
    (rootKeydownListener s e).1.heldKeys =
      heldInsert s.heldKeys (lowerString e.key) ∧
    (o.valid_responses = ValidResponses.keys ks →
      normalizeValidResponses s.areResponsesCaseSensitive o.valid_responses =
        ValidResponses.keys (ks.map lowerString)) := by
  have hlow : toLowerCaseIfInsensitive s e.key = lowerString e.key := by
    unfold toLowerCaseIfInsensitive
    rw [hcase]
    simp
  refine ⟨?_, ?_, ?_, ?_, ?_⟩
  · rcases hq : s.highPriorityQueue with _ | ⟨hh, t⟩
    · have hcalls : (rootKeydownListener s e).2 =
          (s.listeners.foldl (dispatchStep e) (s, [])).2 := by
        unfold rootKeydownListener
        rw [hq]
      rw [hcalls]
      exact dispatch_fold_calls_key e s.listeners s []
        (by intro c hc; simp at hc)
    · intro c hc
      cases hf : firesHP s hh e
      · rw [keydown_high_rejected s e hh t hq hf] at hc
        simp at hc
      · rw [keydown_high_consumed s e hh t hq hf] at hc
        simp only [List.mem_singleton] at hc
        subst hc
        rfl
  · unfold firesOn
    rw [hlow]
  · unfold firesHP
    rw [hlow]
  · rcases hq : s.highPriorityQueue with _ | ⟨hh, t⟩
    · have hkd : (rootKeydownListener s e).1.heldKeys =
          heldInsert (s.listeners.foldl (dispatchStep e) (s, [])).1.heldKeys
            (toLowerCaseIfInsensitive
              (s.listeners.foldl (dispatchStep e) (s, [])).1 e.key) := by
        unfold rootKeydownListener
        rw [hq]
      obtain ⟨hh1, hh2⟩ := dispatch_fold_preserves e s.listeners s []
      rw [hkd, hh1, toLower_congr s _ e.key hh2, hlow]
    · cases hf : firesHP s hh e
      · rw [keydown_high_rejected s e hh t hq hf]
        show heldInsert s.heldKeys (toLowerCaseIfInsensitive s e.key) =
          heldInsert s.heldKeys (lowerString e.key)
        rw [hlow]
      · rw [keydown_high_consumed s e hh t hq hf]
        show heldInsert s.heldKeys (toLowerCaseIfInsensitive s e.key) =
          heldInsert s.heldKeys (lowerString e.key)
        rw [hlow]
  · intro hks
    unfold normalizeValidResponses
    rw [hcase, hks]
    simp

theorem c9_witness :
    wS1.areResponsesCaseSensitive = false ∧
    (∀ c ∈ (rootKeydownListener wS1 wE1).2, c.key = wE1.key) ∧
    firesOn wS1 wL1 wE1 =
      (!(decide (computeRt wL1.usePerformanceRt wL1.startTime wE1 <
          wL1.minimum_valid_rt)) &&
        isResponseValid wS1 wL1.valid_responses wL1.allow_held_key
          (lowerString wE1.key)) ∧
    firesHP wS1 wH wE1 =
      (!(decide (computeRt wH.usePerformanceRt wH.startTime wE1 <
          wH.minimum_valid_rt)) &&
        isResponseValid wS1 wH.valid_responses wH.allow_held_key
          (lowerString wE1.key)) ∧
    (rootKeydownListener wS1 wE1).1.heldKeys =
      heldInsert wS1.heldKeys (lowerString wE1.key) ∧
    (wOpts.valid_responses = ValidResponses.keys ["F", "J"] →
      normalizeValidResponses wS1.areResponsesCaseSensitive
        wOpts.valid_responses =
        ValidResponses.keys ((["F", "J"] : List String).map lowerString)) :=
  ⟨by decide,
   c9_callback_receives_raw_key wS1 wE1 wL1 wH wOpts ["F", "J"] (by decide)⟩

theorem lockout_aux (h : HPHandler) (t : List HPHandler) (k : String)
    (es : List Event) :
    ∀ s : APIState, s.highPriorityQueue = h :: t →
      h.allow_held_key = false →
      s.heldKeys.contains (toLowerCaseIfInsensitive s k) = true →
      (∀ e ∈ es, e.key = k) →
      (processEvents s es).2 = [] ∧
      (processEvents s es).1.highPriorityQueue = h :: t := by
  induction es with
  | nil =>
      intro s hq _ _ _
      exact ⟨rfl, hq⟩
  | cons e es ih =>
      intro s hq hahk hheld hkeys
      have hek : e.key = k := hkeys e (List.mem_cons_self e es)
      have hf : firesHP s h e = false := by
        unfold firesHP
        have hval : isResponseValid s h.valid_responses h.allow_held_key
            (toLowerCaseIfInsensitive s e.key) = false := by
          unfold isResponseValid
          rw [hahk, hek]
          have hmem2 : toLowerCaseIfInsensitive s k ∈ s.heldKeys :=
            List.mem_of_elem_eq_true hheld
          simp [hmem2]
        rw [hval, Bool.and_false]
      rw [processEvents_cons, keydown_high_rejected s e h t hq hf]
      have hheld2 : (heldInsert s.heldKeys
          (toLowerCaseIfInsensitive s e.key)).contains
          (toLowerCaseIfInsensitive s k) = true :=
        heldInsert_contains_mono s.heldKeys _ _ hheld
      obtain ⟨hc2, hq2⟩ := ih
        { s with heldKeys :=
            heldInsert s.heldKeys (toLowerCaseIfInsensitive s e.key) }
        hq hahk hheld2 (fun e2 he2 => hkeys e2 (List.mem_cons_of_mem e he2))
      exact ⟨by simp [hc2], by simp [hq2]⟩

/-- Claim C10: an early press locks out its own key at the high-priority
head: when a key-down for K reaches an allow_held_key = false head with rt
below the floor, the handler reports the event not consumed yet K is still
marked held after dispatch, so no later key-down for K (before a key-up for
K) is ever consumed by that head, even after the RT floor has passed. -/
theorem c10_early_press_locks_out_key
    (s : APIState) (e1 : Event) (es : List Event) (h : HPHandler)
    (t : List HPHandler)
    (hq : s.highPriorityQueue = h :: t)
    (hahk : h.allow_held_key = false)
    (hrt : computeRt h.usePerformanceRt h.startTime e1 < h.minimum_valid_rt)
    (hkeys : ∀ e ∈ es, e.key = e1.key) :
    (rootKeydownListener s e1).2 = [] ∧
    (rootKeydownListener s e1).1.highPriorityQueue = h :: t ∧
    (rootKeydownListener s e1).1.heldKeys.contains
      (toLowerCaseIfInsensitive s e1.key) = true ∧
    (processEvents (rootKeydownListener s e1).1 es).2 = [] ∧
    (processEvents (rootKeydownListener s e1).1 es).1.highPriorityQueue =
      h :: t := by
  have hf1 : firesHP s h e1 = false := by
    unfold firesHP
    simp [hrt]
  have hspec := keydown_high_rejected s e1 h t hq hf1
  have hcont : (rootKeydownListener s e1).1.heldKeys.contains
      (toLowerCaseIfInsensitive (rootKeydownListener s e1).1 e1.key) = true := by
    rw [hspec]
    exact heldInsert_contains_self _ _
  have haux := lockout_aux h t e1.key es (rootKeydownListener s e1).1
    (by rw [hspec]; exact hq) hahk hcont hkeys
  refine ⟨by rw [hspec], by rw [hspec]; exact hq, ?_, haux.1, haux.2⟩
  rw [hspec]
  exact heldInsert_contains_self _ _

theorem c10_witness :
    (wSH.highPriorityQueue = wH :: [] ∧ wH.allow_held_key = false ∧
      computeRt wH.usePerformanceRt wH.startTime wEfast <
        wH.minimum_valid_rt ∧
      ∀ e ∈ [wE2], e.key = wEfast.key) ∧
    (rootKeydownListener wSH wEfast).2 = [] ∧
    (rootKeydownListener wSH wEfast).1.highPriorityQueue = wH :: [] ∧
    (rootKeydownListener wSH wEfast).1.heldKeys.contains
      (toLowerCaseIfInsensitive wSH wEfast.key) = true ∧
    (processEvents (rootKeydownListener wSH wEfast).1 [wE2]).2 = [] ∧
    (processEvents (rootKeydownListener wSH wEfast).1 [wE2]).1.highPriorityQueue =
      wH :: [] :=
  ⟨⟨by decide, by decide, by decide, by decide⟩,
   c10_early_press_locks_out_key wSH wEfast [wE2] wH [] (by decide) (by decide)
     (by decide) (by decide)⟩
